import Mathlib

/-!
A shallow embedding of `src/app.py` (a Flask sentiment-analysis pipeline:
upload a CSV of reviews, classify each row with an external service, persist
a `Review,Sentiment` CSV, upload it to object storage, and render three
charts), together with theorems settling the specification claims.

The external classifier (`analyze_with_comprehend`) and the object-storage
upload are collaborators outside the repository; they are modelled as
parameters: `classify : String → Except E String` returns the sentiment
label for a text (or the exception the service raised), and an upload
attempt's outcome is an `Except String Unit` (error = the exception the
storage client raised).
-/

deriving instance DecidableEq for Except

namespace CCCP

/-- One persisted result row: `{'Review': text, 'Sentiment': sentiment}`
(app.py line 62). -/
structure ResultRecord where
  review : String
  sentiment : String
deriving DecidableEq

/-- The row loop of `process_csv` (app.py lines 57-62): for each CSV row,
if it has at least one field, classify field 0 and append a record; rows
with zero fields are skipped.  An exception from the classifier propagates
(no try/except around the loop). -/
def processRows (classify : String → Except E String) :
    List (List String) → Except E (List ResultRecord)
  | [] => Except.ok []
  | [] :: rest => processRows classify rest
  | (text :: _) :: rest =>
    match classify text with
    | Except.error e => Except.error e
    | Except.ok s =>
      match processRows classify rest with
      | Except.error e => Except.error e
      | Except.ok others => Except.ok ({ review := text, sentiment := s } :: others)

/-- The same loop instrumented to record each text passed to the classifier
(`analyze_with_comprehend(text)` at app.py line 60), stopping after a
raising call. -/
def processRowsCalls (classify : String → Except E String) :
    List (List String) → List String
  | [] => []
  | [] :: rest => processRowsCalls classify rest
  | (text :: _) :: rest =>
    match classify text with
    | Except.error _ => [text]
    | Except.ok _ => text :: processRowsCalls classify rest

/-! ## Word frequency (app.py lines 105-108)

`all_reviews = ' '.join(df['Review'].tolist())`,
`word_counts = Counter(all_reviews.split())`,
`most_common_words = word_counts.most_common(10)`. -/

/-- Helper of `pySplit`: walk the characters, accumulating the current
token in reverse; whitespace ends the current token (if any). -/
def pySplitAux : List Char → List Char → List String
  | [], cur => if cur.isEmpty then [] else [String.mk cur.reverse]
  | c :: rest, cur =>
    if c.isWhitespace then
      if cur.isEmpty then pySplitAux rest []
      else String.mk cur.reverse :: pySplitAux rest []
    else pySplitAux rest (c :: cur)

/-- Python `str.split()` with no argument: split on runs of whitespace and
drop empty pieces. -/
def pySplit (s : String) : List String :=
  pySplitAux s.data []

/-- Python `' '.join(strings)`. -/
def joinSpaces : List String → String
  | [] => ""
  | [s] => s
  | s :: rest => s ++ " " ++ joinSpaces rest

/-- Adding one token to a `collections.Counter` viewed as an association
list in key-insertion order: increment the existing entry for the token, or
append a fresh entry with count 1. -/
def bump : List (String × Nat) → String → List (String × Nat)
  | [], w => [(w, 1)]
  | (x, c) :: rest, w =>
    if x = w then (x, c + 1) :: rest else (x, c) :: bump rest w

/-- Left fold of `bump` over a token stream. -/
def tallyAux (acc : List (String × Nat)) : List String → List (String × Nat)
  | [] => acc
  | t :: rest => tallyAux (bump acc t) rest

/-- `Counter(tokens)` as an association list whose keys appear in
first-encounter order. -/
def tally (toks : List String) : List (String × Nat) :=
  tallyAux [] toks

/-- The comparison used by `Counter.most_common`: Python sorts the counter
items with a stable sort on the count, in reverse (descending) order. -/
def countGE (a b : String × Nat) : Bool :=
  b.2 ≤ a.2

/-- Stable descending insertion: place `p` right before the first element
whose count is at most `p`'s, so elements with strictly greater counts, and
earlier elements with equal counts, stay in front of `p`. -/
def insertDesc (p : String × Nat) : List (String × Nat) → List (String × Nat)
  | [] => [p]
  | q :: rest => if countGE p q then p :: q :: rest else q :: insertDesc p rest

/-- A stable sort by descending count, extensionally the sort performed by
`Counter.most_common` (Python's `sorted(..., reverse=True)` on the count is
stable: items with equal counts keep their relative — key-insertion —
order). -/
def sortByCountDesc : List (String × Nat) → List (String × Nat)
  | [] => []
  | p :: rest => insertDesc p (sortByCountDesc rest)

/-- `Counter.most_common(n)`: stable sort of the counter items by
descending count, then the first `n`. -/
def mostCommon (n : Nat) (items : List (String × Nat)) : List (String × Nat) :=
  (sortByCountDesc items).take n

/-- The distinct elements of a list in order of first occurrence (the key
order of a `Counter` built from the list). -/
def dedupFirst : List String → List String
  | [] => []
  | t :: rest => t :: (dedupFirst rest).erase t

/-- The count stored in a counter association list for a key (0 when the
key is absent). -/
def getCount (l : List (String × Nat)) (w : String) : Nat :=
  match l.find? (fun p => p.1 == w) with
  | some p => p.2
  | none => 0

/-- The word-frequency chart data of `visualize_sentiment_trends`
(app.py lines 105-108): join all reviews with single spaces, split on
whitespace, count token frequency, take the 10 most common. -/
def wordFrequencyChart (reviews : List String) : List (String × Nat) :=
  mostCommon 10 (tally (pySplit (joinSpaces reviews)))

/-- The token stream the word chart counts over: the reviews joined with
single spaces, split on whitespace (`all_reviews.split()`). -/
def reviewTokens (reviews : List String) : List String :=
  pySplit (joinSpaces reviews)

/-! ## CSV serialization (pandas `DataFrame.to_csv(path, index=False)`,
app.py lines 65-67) -/

/-- Minimal quoting (the csv module's QUOTE_MINIMAL, used by pandas): a
field is quoted iff it contains the delimiter, the quote character, or a
line terminator character. -/
def csvQuoteNeeded (s : String) : Bool :=
  s.data.any (fun c => c = ',' || c = '"' || c = '\n' || c = '\r')

/-- Double every quote character, the escaping used inside a quoted CSV
field. -/
def escapeQuotes : List Char → List Char
  | [] => []
  | c :: rest =>
    if c = '"' then '"' :: '"' :: escapeQuotes rest else c :: escapeQuotes rest

/-- Render one CSV field under minimal quoting; inner quote characters are
doubled. -/
def csvField (s : String) : String :=
  if csvQuoteNeeded s then "\"" ++ String.mk (escapeQuotes s.data) ++ "\"" else s

/-- `pd.DataFrame(results).to_csv(path, index=False)` as a list of lines.
A nonempty result list yields the header `Review,Sentiment` followed by
one line per record.  `pd.DataFrame([])` has no columns at all, so for an
empty result list the written header row is the empty line and there are
no data lines: the file is a single blank line, with no
`Review,Sentiment` header. -/
def toCsvLines (records : List ResultRecord) : List String :=
  match records with
  | [] => [""]
  | _ =>
    "Review,Sentiment" ::
      records.map (fun r => csvField r.review ++ "," ++ csvField r.sentiment)

/-! ## CSV parsing (`pd.read_csv`, app.py line 77) -/

/-- State machine for one CSV line under the default dialect: fields
separated by commas, quoted sections opened and closed by a quote
character, a doubled quote inside a quoted section is a literal quote.
The first argument says whether we are inside a quoted section, the last
accumulates the current field. -/
def parseCsvLineAux : Bool → List Char → List Char → List String
  | _, [], cur => [String.mk cur]
  | false, ',' :: rest, cur => String.mk cur :: parseCsvLineAux false rest []
  | false, '"' :: rest, cur => parseCsvLineAux true rest cur
  | false, c :: rest, cur => parseCsvLineAux false rest (cur ++ [c])
  | true, '"' :: '"' :: rest, cur => parseCsvLineAux true rest (cur ++ ['"'])
  | true, '"' :: rest, cur => parseCsvLineAux false rest cur
  | true, c :: rest, cur => parseCsvLineAux true rest (cur ++ [c])

/-- Split one CSV line into fields; a blank line has no fields. -/
def parseCsvLine (s : String) : List String :=
  if s = "" then [] else parseCsvLineAux false s.data []

/-- A loaded data frame: the column names from the header line, and the
data rows. -/
structure Frame where
  cols : List String
  rows : List (List String)
deriving DecidableEq

/-- The errors `visualize_sentiment_trends` can raise: pandas
`EmptyDataError` from `pd.read_csv` on a file with no columns to parse, the
explicit `ValueError("CSV must contain 'Sentiment' column.")` (app.py line
80), and the `KeyError` from `df['Review']` when that column is absent
(app.py line 106). -/
inductive VizError where
  | emptyData
  | missingSentimentColumn
  | missingReviewColumn
deriving DecidableEq

/-- `pd.read_csv` over the file's lines: blank lines are skipped; if
nothing remains there are no columns to parse and `EmptyDataError` is
raised; otherwise the first remaining line is the header and the rest are
data rows. -/
def readCsv (lines : List String) : Except VizError Frame :=
  match lines.filter (fun l => l ≠ "") with
  | [] => Except.error VizError.emptyData
  | header :: data =>
    Except.ok { cols := parseCsvLine header, rows := data.map parseCsvLine }

/-- The values of the column named `name`, reading each row at the
column's header position. -/
def colValues (df : Frame) (i : Nat) : List String :=
  df.rows.map (fun r => r.getD i "")

/-- `Series.value_counts()`: occurrence counts of the distinct values,
in descending count order. -/
def valueCounts (vals : List String) : List (String × Nat) :=
  sortByCountDesc (tally vals)

/-- The data behind the three rendered charts: bar heights and pie sizes
are the sentiment value counts, the word chart is the top-10 token
frequency list. -/
structure ChartsData where
  bar : List (String × Nat)
  pie : List (String × Nat)
  words : List (String × Nat)
deriving DecidableEq

/-- `visualize_sentiment_trends` (app.py lines 75-121) on the lines of the
CSV at `csv_file_path`: load the frame (pandas raises `EmptyDataError` on
a file with no columns), raise `ValueError` if there is no `Sentiment`
column, otherwise compute the three charts; `df['Review']` raises
`KeyError` if the `Review` column is absent. -/
def visualize_sentiment_trends (lines : List String) : Except VizError ChartsData :=
  match readCsv lines with
  | Except.error e => Except.error e
  | Except.ok df =>
    if "Sentiment" ∈ df.cols then
      match df.cols.indexOf? "Review" with
      | none => Except.error VizError.missingReviewColumn
      | some i =>
        match df.cols.indexOf? "Sentiment" with
        | none => Except.error VizError.missingSentimentColumn
        | some j =>
          Except.ok
            { bar := valueCounts (colValues df j)
              pie := valueCounts (colValues df j)
              words := wordFrequencyChart (colValues df i) }
    else Except.error VizError.missingSentimentColumn

/-! ## Persistence and upload (app.py lines 31-38 and 64-72) -/

/-- `os.path.join(tempfile.gettempdir(), 'sentiment_analysis_results.csv')`
on the deployment platform. -/
def csvFileName : String := "sentiment_analysis_results.csv"

/-- The fixed local path of the intermediate CSV. -/
def csvFilePath : String := "/tmp/" ++ csvFileName

/-- The default bucket (`BUCKET_NAME` unset). -/
def bucketName : String := "cccpbucket1"

/-- Observable file-system and network actions of `process_csv`. -/
inductive SideEffect where
  | writeFile (path : String) (lines : List String)
  | s3Upload (path bucket key : String) (succeeded : Bool)
deriving DecidableEq

/-- `upload_local_file_to_s3` (app.py lines 31-38): the S3 call's outcome
is the argument; any exception it raises is caught and logged and the
function returns `False`, otherwise it returns `True`.  By its type it
never propagates an exception. -/
def upload_local_file_to_s3 (uploadOutcome : Except String Unit) : Bool :=
  match uploadOutcome with
  | Except.ok _ => true
  | Except.error _ => false

/-- `process_csv` (app.py lines 47-72) over the decoded CSV rows: run the
classification loop over all rows; only then write the result CSV and
attempt the S3 upload (whose success is ignored), and return the local
path.  A classifier exception propagates before any side effect. -/
def process_csv (classify : String → Except E String)
    (uploadOutcome : Except String Unit) (rows : List (List String)) :
    Except E String × List SideEffect :=
  match processRows classify rows with
  | Except.error e => (Except.error e, [])
  | Except.ok records =>
    (Except.ok csvFilePath,
      [SideEffect.writeFile csvFilePath (toCsvLines records),
       SideEffect.s3Upload csvFilePath bucketName csvFileName
         (upload_local_file_to_s3 uploadOutcome)])

/-- An exception escaping the request pipeline: either the classifier's, or
one raised by `visualize_sentiment_trends`. -/
inductive PipelineError (E : Type) where
  | classification (e : E)
  | visualization (v : VizError)
deriving DecidableEq

/-- The pipeline run by the request handler on a `.csv` upload (app.py
lines 141-144): `process_csv` followed by `visualize_sentiment_trends` on
the file just written.  The success value is the local CSV path and the
chart data. -/
def runPipeline (classify : String → Except E String)
    (uploadOutcome : Except String Unit) (rows : List (List String)) :
    Except (PipelineError E) (String × ChartsData) × List SideEffect :=
  match processRows classify rows with
  | Except.error e => (Except.error (PipelineError.classification e), [])
  | Except.ok records =>
    let lines := toCsvLines records
    let effs := [SideEffect.writeFile csvFilePath lines,
                 SideEffect.s3Upload csvFilePath bucketName csvFileName
                   (upload_local_file_to_s3 uploadOutcome)]
    match visualize_sentiment_trends lines with
    | Except.error v => (Except.error (PipelineError.visualization v), effs)
    | Except.ok charts => (Except.ok (csvFilePath, charts), effs)

/-! ## Request handler (app.py lines 123-172) -/

inductive HttpMethod where
  | get
  | post
deriving DecidableEq

/-- The multipart `file` field: declared file name plus the decoded CSV
rows of the uploaded content. -/
structure FilePart where
  filename : String
  rows : List (List String)
deriving DecidableEq

/-- A request to `/`: the method, and the `file` field when present. -/
structure HttpRequest where
  method : HttpMethod
  filePart : Option FilePart
deriving DecidableEq

/-- What the handler returns: a plain-text body with a status code, or the
rendered form page carrying the given image URLs. -/
inductive HttpResponse where
  | text (body : String) (status : Nat)
  | formPage (images : List String)
deriving DecidableEq

/-- The three image URLs rendered after a successful pipeline run
(app.py lines 162-164). -/
def staticImageUrls : List String :=
  ["/static/sentiment_bar.png", "/static/sentiment_pie.png",
   "/static/word_frequency.png"]

/-- `upload_file` (app.py lines 123-172).  GET renders the bare form.
POST: a missing `file` field returns 400 `No file part`; an empty file
name returns 400 `No selected file`; after that check `file` is truthy, so
a name not ending in `.csv` falls through to the bare form page; a `.csv`
name runs the pipeline and, on success, renders the form page with the
three image URLs.  An exception from the pipeline propagates out of the
handler.  The boolean records whether any pipeline step ran. -/
def upload_file (classify : String → Except E String)
    (uploadOutcome : Except String Unit) (req : HttpRequest) :
    Except (PipelineError E) HttpResponse × Bool :=
  match req.method with
  | HttpMethod.get => (Except.ok (HttpResponse.formPage []), false)
  | HttpMethod.post =>
    match req.filePart with
    | none => (Except.ok (HttpResponse.text "No file part" 400), false)
    | some fp =>
      if fp.filename = "" then
        (Except.ok (HttpResponse.text "No selected file" 400), false)
      else if List.isSuffixOf ".csv".data fp.filename.data then
        match (runPipeline classify uploadOutcome fp.rows).1 with
        | Except.error e => (Except.error e, true)
        | Except.ok _ => (Except.ok (HttpResponse.formPage staticImageUrls), true)
      else (Except.ok (HttpResponse.formPage []), false)

/-! ## Decoding (app.py lines 51-55)

`file.read().decode('utf-8')` with a `UnicodeDecodeError` handler that
retries `decode('ISO-8859-1')`. -/

/-- A continuation byte `10xxxxxx`. -/
def isCont (b : Fin 256) : Bool :=
  0x80 ≤ b.val && b.val ≤ 0xBF

/-- Strict UTF-8 decoding of a byte buffer to code points, as Python's
`bytes.decode('utf-8')`: rejects stray or missing continuation bytes,
overlong encodings, surrogate code points and code points above
`0x10FFFF`.  `none` models `UnicodeDecodeError`. -/
def utf8Decode : List (Fin 256) → Option (List Nat)
  | [] => some []
  | b :: rest =>
    if b.val ≤ 0x7F then
      (utf8Decode rest).map (fun cps => b.val :: cps)
    else if b.val ≤ 0xBF then
      none
    else if b.val ≤ 0xDF then
      match rest with
      | b1 :: rest2 =>
        if isCont b1 then
          let cp := (b.val - 0xC0) * 0x40 + (b1.val - 0x80)
          if 0x80 ≤ cp then (utf8Decode rest2).map (fun cps => cp :: cps)
          else none
        else none
      | [] => none
    else if b.val ≤ 0xEF then
      match rest with
      | b1 :: b2 :: rest2 =>
        if isCont b1 && isCont b2 then
          let cp := (b.val - 0xE0) * 0x1000 + (b1.val - 0x80) * 0x40 +
            (b2.val - 0x80)
          if 0x800 ≤ cp && ¬(0xD800 ≤ cp && cp ≤ 0xDFFF) then
            (utf8Decode rest2).map (fun cps => cp :: cps)
          else none
        else none
      | _ => none
    else if b.val ≤ 0xF4 then
      match rest with
      | b1 :: b2 :: b3 :: rest2 =>
        if isCont b1 && isCont b2 && isCont b3 then
          let cp := (b.val - 0xF0) * 0x40000 + (b1.val - 0x80) * 0x1000 +
            (b2.val - 0x80) * 0x40 + (b3.val - 0x80)
          if 0x10000 ≤ cp && cp ≤ 0x10FFFF then
            (utf8Decode rest2).map (fun cps => cp :: cps)
          else none
        else none
      | _ => none
    else none

/-- `bytes.decode('ISO-8859-1')`: every byte becomes the code point of the
same value; it is a total function, defined for arbitrary byte input. -/
def latin1Decode (bs : List (Fin 256)) : List Nat :=
  bs.map Fin.val

/-- The decode policy of `process_csv` (app.py lines 51-55): try a UTF-8
decode of the whole buffer; exactly when that raises, retry with
ISO-8859-1. -/
def decodeBytes (bs : List (Fin 256)) : List Nat :=
  match utf8Decode bs with
  | some cps => cps
  | none => latin1Decode bs

/-! ## Lemmas about the row loop -/

/-- When the classifier succeeds on every text, the row loop returns one
record per row with at least one field, in input order: the record's
review is the row's first field and its sentiment the classifier's label
for it. -/
theorem processRows_ok {E : Type} (classify : String → Except E String)
    (lab : String → String) (h : ∀ t, classify t = Except.ok (lab t)) :
    ∀ rows : List (List String),
      processRows classify rows =
        Except.ok (rows.filterMap (fun r => r.head?.map
          (fun t => ({ review := t, sentiment := lab t } : ResultRecord))))
  | [] => by simp [processRows]
  | [] :: rest => by
    simp [processRows, processRows_ok classify lab h rest]
  | (t :: tl) :: rest => by
    simp [processRows, h t, processRows_ok classify lab h rest]

/-- When the classifier succeeds on every text, the texts passed to it are
exactly the first fields of the rows with at least one field, in order. -/
theorem processRowsCalls_ok {E : Type} (classify : String → Except E String)
    (lab : String → String) (h : ∀ t, classify t = Except.ok (lab t)) :
    ∀ rows : List (List String),
      processRowsCalls classify rows = rows.filterMap List.head?
  | [] => by simp [processRowsCalls]
  | [] :: rest => by
    simp [processRowsCalls, processRowsCalls_ok classify lab h rest]
  | (t :: tl) :: rest => by
    simp [processRowsCalls, h t, processRowsCalls_ok classify lab h rest]

/-! ## Lemmas about the counter -/

/-- Reading a count from a cons cell: the head's count when the keys
match, else the tail's count. -/
theorem getCount_cons (x : String) (c : Nat) (rest : List (String × Nat))
    (w : String) :
    getCount ((x, c) :: rest) w = if x = w then c else getCount rest w := by
  by_cases h : x = w
  · simp [getCount, List.find?_cons, h]
  · have hb : (x == w) = false := by simp [h]
    simp [getCount, List.find?_cons, hb, h]

/-- The cons equation of `bump`. -/
theorem bump_cons (x : String) (c : Nat) (rest : List (String × Nat))
    (t : String) :
    bump ((x, c) :: rest) t =
      if x = t then (x, c + 1) :: rest else (x, c) :: bump rest t := rfl

/-- `bump` changes exactly the bumped key's count: up by one for the key,
unchanged for every other key. -/
theorem getCount_bump (l : List (String × Nat)) (t w : String) :
    getCount (bump l t) w = getCount l w + if w = t then 1 else 0 := by
  induction l with
  | nil =>
    by_cases h : w = t
    · subst h
      simp [bump, getCount_cons, getCount]
    · have : t ≠ w := fun hh => h hh.symm
      simp [bump, getCount_cons, getCount, this, h]
  | cons q rest ih =>
    obtain ⟨x, c⟩ := q
    by_cases hxt : x = t
    · rw [bump_cons, if_pos hxt, getCount_cons, getCount_cons]
      by_cases hwx : x = w
      · have hwt : w = t := hwx ▸ hxt
        simp [hwx, hwt]
      · have hwt : ¬w = t := fun hh => hwx (hxt.trans hh.symm)
        simp [hwx, hwt]
    · rw [bump_cons, if_neg hxt, getCount_cons, getCount_cons]
      by_cases hwx : x = w
      · have hwt : ¬w = t := fun hh => hxt (hwx.trans hh)
        simp [hwx, hwt]
      · simp [hwx, ih]

/-- If the key is already present, `bump` does not change the key list. -/
theorem bump_map_fst_mem (l : List (String × Nat)) (t : String)
    (h : t ∈ l.map Prod.fst) : (bump l t).map Prod.fst = l.map Prod.fst := by
  induction l with
  | nil => simp at h
  | cons q rest ih =>
    obtain ⟨x, c⟩ := q
    by_cases hxt : x = t
    · simp [bump, hxt]
    · simp only [List.map_cons] at h
      have ht : t ∈ rest.map Prod.fst := by
        rcases List.mem_cons.mp h with h1 | h1
        · exact absurd h1.symm hxt
        · exact h1
      simp [bump, hxt, ih ht]

/-- If the key is absent, `bump` appends it at the end of the key list. -/
theorem bump_map_fst_new (l : List (String × Nat)) (t : String)
    (h : t ∉ l.map Prod.fst) :
    (bump l t).map Prod.fst = l.map Prod.fst ++ [t] := by
  induction l with
  | nil => simp [bump]
  | cons q rest ih =>
    obtain ⟨x, c⟩ := q
    simp only [List.map_cons, List.mem_cons] at h
    push_neg at h
    have hxt : ¬x = t := fun hh => h.1 hh.symm
    simp [bump, hxt, ih h.2]

/-- `dedupFirst` keeps exactly the members of the list. -/
theorem mem_dedupFirst {w : String} :
    ∀ {l : List String}, w ∈ dedupFirst l ↔ w ∈ l
  | [] => Iff.rfl
  | t :: rest => by
    by_cases h : w = t
    · subst h
      simp [dedupFirst]
    · simp only [dedupFirst, List.mem_cons]
      rw [List.mem_erase_of_ne h, mem_dedupFirst]

/-- `dedupFirst` never repeats an element. -/
theorem dedupFirst_nodup : ∀ l : List String, (dedupFirst l).Nodup
  | [] => List.nodup_nil
  | t :: rest => by
    have ih := dedupFirst_nodup rest
    refine List.nodup_cons.mpr ⟨?_, ih.erase t⟩
    intro hmem
    exact absurd rfl (ih.mem_erase_iff.mp hmem).1

/-- Erasing an element the filter rejects does not change the filtered
list. -/
theorem filter_erase_of_neg {p : String → Bool} {t : String}
    (hp : p t = false) : ∀ l : List String, (l.erase t).filter p = l.filter p
  | [] => rfl
  | c :: rest => by
    by_cases hct : c = t
    · subst hct
      simp [List.erase_cons, List.filter_cons, hp]
    · have hb : ¬((c == t) = true) := by simp [hct]
      rw [List.erase_cons, if_neg hb]
      simp only [List.filter_cons]
      cases hpc : p c <;>
        simp [hpc, filter_erase_of_neg hp rest]

/-- Folding the token stream into an accumulator appends, to the
accumulator's keys, the stream's first-encounter distinct tokens that are
not already keys, in first-encounter order. -/
theorem tallyAux_map_fst :
    ∀ (toks : List String) (acc : List (String × Nat)),
      (tallyAux acc toks).map Prod.fst =
        acc.map Prod.fst ++
          (dedupFirst toks).filter (fun w => decide (w ∉ acc.map Prod.fst))
  | [], acc => by simp [tallyAux, dedupFirst]
  | t :: rest, acc => by
    have step : tallyAux acc (t :: rest) = tallyAux (bump acc t) rest := rfl
    rw [step, tallyAux_map_fst rest (bump acc t)]
    by_cases h : t ∈ acc.map Prod.fst
    · rw [bump_map_fst_mem acc t h]
      have hpt : ¬((fun w => decide (w ∉ acc.map Prod.fst)) t = true) := by
        simp [h]
      have hptf : (fun w => decide (w ∉ acc.map Prod.fst)) t = false := by
        simp [h]
      simp only [dedupFirst]
      rw [List.filter_cons_of_neg
          (p := fun w => decide (w ∉ acc.map Prod.fst)) (a := t)
          (l := (dedupFirst rest).erase t) hpt,
        filter_erase_of_neg hptf (dedupFirst rest)]
    · rw [bump_map_fst_new acc t h]
      have hpt : (fun w => decide (w ∉ acc.map Prod.fst)) t = true := by
        simp [h]
      simp only [dedupFirst]
      rw [List.filter_cons_of_pos
          (p := fun w => decide (w ∉ acc.map Prod.fst)) (a := t)
          (l := (dedupFirst rest).erase t) hpt,
        (dedupFirst_nodup rest).erase_eq_filter t, List.filter_filter]
      rw [List.append_assoc, List.singleton_append]
      congr 1
      congr 1
      apply List.filter_congr
      intro w hw
      by_cases hwt : w = t
      · simp [hwt, h]
      · have hbne : (w != t) = true := by simp [bne_iff_ne, hwt]
        simp [hbne, List.mem_append, hwt]

/-- Folding the token stream adds each token's multiplicity to the
accumulator's count for it. -/
theorem tallyAux_getCount :
    ∀ (toks : List String) (acc : List (String × Nat)) (w : String),
      getCount (tallyAux acc toks) w = getCount acc w + toks.count w
  | [], acc, w => by simp [tallyAux]
  | t :: rest, acc, w => by
    have step : tallyAux acc (t :: rest) = tallyAux (bump acc t) rest := rfl
    rw [step, tallyAux_getCount rest (bump acc t) w, getCount_bump,
      List.count_cons]
    by_cases h : w = t
    · simp [h]
      omega
    · have : (t == w) = false := by
        simp [beq_iff_eq]
        exact fun hh => h hh.symm
      simp [h, this]

/-- The keys of `tally toks` are the distinct tokens in first-encounter
order. -/
theorem tally_map_fst (toks : List String) :
    (tally toks).map Prod.fst = dedupFirst toks := by
  have := tallyAux_map_fst toks []
  simpa [tally] using this

/-- The count `tally` stores for a token is its multiplicity in the
stream. -/
theorem tally_getCount (toks : List String) (w : String) :
    getCount (tally toks) w = toks.count w := by
  have := tallyAux_getCount toks [] w
  simpa [tally, getCount] using this

/-- The entries of `tally` are pairwise distinct (their keys are). -/
theorem tally_nodup (toks : List String) : (tally toks).Nodup :=
  List.Nodup.of_map Prod.fst (tally_map_fst toks ▸ dedupFirst_nodup toks)

/-- In an association list without duplicate keys, searching for a
member's key finds that member. -/
theorem find_eq_of_mem_keys :
    ∀ {l : List (String × Nat)}, (l.map Prod.fst).Nodup →
      ∀ {p : String × Nat}, p ∈ l → l.find? (fun q => q.1 == p.1) = some p
  | [], _, _, hp => absurd hp (List.not_mem_nil _)
  | q :: rest, hn, p, hp => by
    rcases List.mem_cons.mp hp with h | h
    · subst h
      simp [List.find?_cons]
    · have hq : q.1 ∉ rest.map Prod.fst := (List.nodup_cons.mp hn).1
      have hne : (q.1 == p.1) = false := by
        simp only [beq_eq_false_iff_ne, ne_eq]
        intro hEq
        exact hq (hEq ▸ List.mem_map_of_mem Prod.fst h)
      rw [List.find?_cons, hne]
      exact find_eq_of_mem_keys (List.nodup_cons.mp hn).2 h

/-- Every entry of `tally toks` pairs a member of the stream with its
multiplicity. -/
theorem mem_tally {toks : List String} {p : String × Nat}
    (hp : p ∈ tally toks) : p.1 ∈ toks ∧ p.2 = toks.count p.1 := by
  constructor
  · exact mem_dedupFirst.mp
      (tally_map_fst toks ▸ List.mem_map_of_mem Prod.fst hp)
  · have hfind := find_eq_of_mem_keys
      (tally_map_fst toks ▸ dedupFirst_nodup toks) hp
    have h2 := tally_getCount toks p.1
    simp [getCount, hfind] at h2
    exact h2

/-- Every member of the stream appears in `tally` with its multiplicity. -/
theorem tally_mem_of_mem {toks : List String} {w : String} (hw : w ∈ toks) :
    (w, toks.count w) ∈ tally toks := by
  have hkey : w ∈ (tally toks).map Prod.fst := by
    rw [tally_map_fst]
    exact mem_dedupFirst.mpr hw
  rcases List.mem_map.mp hkey with ⟨p, hp, hfst⟩
  obtain ⟨a, b⟩ := p
  simp only at hfst
  subst hfst
  have h2 : b = toks.count a := (mem_tally hp).2
  rw [show ((a : String), toks.count a) = (a, b) by rw [h2]]
  exact hp

/-! ## Lemmas about the stable descending sort -/

/-- Membership in an insertion. -/
theorem mem_insertDesc {p x : String × Nat} :
    ∀ {l : List (String × Nat)}, x ∈ insertDesc p l ↔ x = p ∨ x ∈ l
  | [] => by simp [insertDesc]
  | q :: rest => by
    by_cases h : countGE p q
    · simp [insertDesc, h, List.mem_cons]
    · simp only [insertDesc, if_neg h, List.mem_cons, mem_insertDesc]
      tauto

/-- Insertion is a permutation of consing. -/
theorem insertDesc_perm (p : String × Nat) :
    ∀ l : List (String × Nat), List.Perm (insertDesc p l) (p :: l)
  | [] => List.Perm.refl _
  | q :: rest => by
    by_cases h : countGE p q
    · rw [insertDesc, if_pos h]
    · rw [insertDesc, if_neg h]
      exact ((insertDesc_perm p rest).cons q).trans (List.Perm.swap p q rest)

/-- The sort permutes its input. -/
theorem sortByCountDesc_perm :
    ∀ l : List (String × Nat), List.Perm (sortByCountDesc l) l
  | [] => List.Perm.refl _
  | p :: rest =>
    (insertDesc_perm p (sortByCountDesc rest)).trans
      ((sortByCountDesc_perm rest).cons p)

/-- Insertion preserves the descending-count invariant. -/
theorem insertDesc_sorted (p : String × Nat) :
    ∀ {l : List (String × Nat)},
      l.Pairwise (fun a b => b.2 ≤ a.2) →
      (insertDesc p l).Pairwise (fun a b => b.2 ≤ a.2)
  | [], _ => List.pairwise_singleton _ p
  | q :: rest, h => by
    rcases List.pairwise_cons.mp h with ⟨hq, hrest⟩
    by_cases hc : countGE p q
    · rw [insertDesc, if_pos hc]
      have hpq : q.2 ≤ p.2 := by simpa [countGE] using hc
      refine List.pairwise_cons.mpr ⟨?_, h⟩
      intro x hx
      rcases List.mem_cons.mp hx with hx | hx
      · exact hx ▸ hpq
      · exact le_trans (hq x hx) hpq
    · rw [insertDesc, if_neg hc]
      have hqp : p.2 < q.2 := by
        have h2 : ¬q.2 ≤ p.2 := by simpa [countGE] using hc
        omega
      refine List.pairwise_cons.mpr ⟨?_, insertDesc_sorted p hrest⟩
      intro x hx
      rcases mem_insertDesc.mp hx with hx | hx
      · exact hx ▸ Nat.le_of_lt hqp
      · exact hq x hx

/-- The sort's output is in descending count order. -/
theorem sortByCountDesc_sorted :
    ∀ l : List (String × Nat),
      (sortByCountDesc l).Pairwise (fun a b => b.2 ≤ a.2)
  | [] => List.Pairwise.nil
  | p :: rest => insertDesc_sorted p (sortByCountDesc_sorted rest)

/-- A list is a sublist of any insertion into it. -/
theorem sublist_insertDesc (p : String × Nat) :
    ∀ l : List (String × Nat), l.Sublist (insertDesc p l)
  | [] => List.nil_sublist _
  | q :: rest => by
    by_cases h : countGE p q
    · rw [insertDesc, if_pos h]
      exact (List.Sublist.refl _).cons p
    · rw [insertDesc, if_neg h]
      exact (sublist_insertDesc p rest).cons₂ q

/-- Inserting `a` into a descending-sorted list containing `b`, where
`b`'s count is at most `a`'s, places `a` before `b`. -/
theorem insertDesc_pair (a b : String × Nat) (hba : b.2 ≤ a.2) :
    ∀ {l : List (String × Nat)},
      l.Pairwise (fun x y => y.2 ≤ x.2) → b ∈ l → ([a, b]).Sublist (insertDesc a l)
  | [], _, hb => absurd hb (List.not_mem_nil b)
  | q :: rest, hs, hb => by
    by_cases hc : countGE a q
    · rw [insertDesc, if_pos hc]
      exact (List.singleton_sublist.mpr hb).cons₂ a
    · rw [insertDesc, if_neg hc]
      have haq : a.2 < q.2 := by
        have h2 : ¬q.2 ≤ a.2 := by simpa [countGE] using hc
        omega
      have hbq : b ≠ q := by
        intro hEq
        subst hEq
        omega
      have hbrest : b ∈ rest := by
        rcases List.mem_cons.mp hb with h | h
        · exact absurd h hbq
        · exact h
      exact (insertDesc_pair a b hba (List.pairwise_cons.mp hs).2 hbrest).cons q

/-- Stability of the sort on ordered pairs: an in-order pair whose counts
are non-increasing is still an in-order pair of the sorted output. -/
theorem pair_sublist_sortByCountDesc (a b : String × Nat) (hba : b.2 ≤ a.2) :
    ∀ l : List (String × Nat), ([a, b]).Sublist l → ([a, b]).Sublist (sortByCountDesc l)
  | [], h => by cases h
  | c :: rest, h => by
    rw [show sortByCountDesc (c :: rest) = insertDesc c (sortByCountDesc rest)
      from rfl]
    cases h with
    | cons _ h2 =>
      exact (pair_sublist_sortByCountDesc a b hba rest h2).trans
        (sublist_insertDesc c _)
    | cons₂ _ h2 =>
      exact insertDesc_pair a b hba (sortByCountDesc_sorted rest)
        ((sortByCountDesc_perm rest).mem_iff.mpr (List.singleton_sublist.mp h2))

/-- Two distinct members of a list form an in-order pair one way or the
other. -/
theorem pair_sublist_of_mem {x y : String × Nat} :
    ∀ {l : List (String × Nat)}, x ≠ y → x ∈ l → y ∈ l →
      ([x, y]).Sublist l ∨ ([y, x]).Sublist l
  | [], _, hx, _ => absurd hx (List.not_mem_nil x)
  | c :: rest, hne, hx, hy => by
    by_cases hxc : x = c
    · subst hxc
      have hyr : y ∈ rest := by
        rcases List.mem_cons.mp hy with h | h
        · exact absurd h.symm hne
        · exact h
      exact Or.inl ((List.singleton_sublist.mpr hyr).cons₂ x)
    · by_cases hyc : y = c
      · subst hyc
        have hxr : x ∈ rest := by
          rcases List.mem_cons.mp hx with h | h
          · exact absurd h hxc
          · exact h
        exact Or.inr ((List.singleton_sublist.mpr hxr).cons₂ y)
      · have hxr : x ∈ rest := by
          rcases List.mem_cons.mp hx with h | h
          · exact absurd h hxc
          · exact h
        have hyr : y ∈ rest := by
          rcases List.mem_cons.mp hy with h | h
          · exact absurd h hyc
          · exact h
        rcases pair_sublist_of_mem hne hxr hyr with h | h
        · exact Or.inl (h.cons c)
        · exact Or.inr (h.cons c)

/-- A two-element sublist occupies two positions in order. -/
theorem pair_sublist_get {x y : String × Nat} :
    ∀ {l : List (String × Nat)}, ([x, y]).Sublist l →
      ∃ i j : Fin l.length, i.val < j.val ∧ l.get i = x ∧ l.get j = y
  | [], h => by cases h
  | c :: rest, h => by
    cases h with
    | cons _ h2 =>
      rcases pair_sublist_get h2 with ⟨i, j, hij, hx, hy⟩
      exact ⟨i.succ, j.succ, Nat.succ_lt_succ hij, hx, hy⟩
    | cons₂ _ h2 =>
      have hyr : y ∈ rest := List.singleton_sublist.mp h2
      rcases List.mem_iff_get.mp hyr with ⟨k, hk⟩
      exact ⟨⟨0, Nat.succ_pos _⟩, k.succ, Nat.succ_pos _, rfl, hk⟩

/-- Ties in the sorted output respect the input order: if two entries of
the sorted output have equal counts, they form an in-order pair of the
(duplicate-free) input. -/
theorem sortByCountDesc_ties {items : List (String × Nat)}
    (hn : items.Nodup) :
    (sortByCountDesc items).Pairwise
      (fun a b => a.2 = b.2 → ([a, b]).Sublist items) := by
  have hperm := sortByCountDesc_perm items
  have hnd : (sortByCountDesc items).Nodup := hperm.nodup_iff.mpr hn
  rw [List.pairwise_iff_get]
  intro i j hij heq
  have hmi : (sortByCountDesc items).get i ∈ items :=
    hperm.mem_iff.mp (List.get_mem _ i.1 i.2)
  have hmj : (sortByCountDesc items).get j ∈ items :=
    hperm.mem_iff.mp (List.get_mem _ j.1 j.2)
  have hne : (sortByCountDesc items).get i ≠ (sortByCountDesc items).get j := by
    intro hEq
    have := hnd.get_inj_iff.mp hEq
    rw [this] at hij
    exact lt_irrefl _ hij
  rcases pair_sublist_of_mem hne hmi hmj with h | h
  · exact h
  · exfalso
    have hle : ((sortByCountDesc items).get i).2 ≤
        ((sortByCountDesc items).get j).2 := heq ▸ le_refl _
    have hs := pair_sublist_sortByCountDesc _ _ hle items h
    rcases pair_sublist_get hs with ⟨k, m, hkm, hk, hm⟩
    have hkj : k = j := hnd.get_inj_iff.mp hk
    have hmi2 : m = i := hnd.get_inj_iff.mp hm
    rw [hkj, hmi2] at hkm
    exact absurd hij (Nat.lt_asymm hkm)

/-! ## Claim theorems -/

/-- Claim C2: the word-frequency chart is computed over the token stream
obtained by joining every Review field unmodified with single spaces and
splitting on whitespace; it has at most 10 entries; every entry pairs a
token of the stream with that token's true frequency; entries are ordered
by descending frequency; equal-frequency entries appear in
first-encountered order (the order of `dedupFirst` on the stream); and any
token left out of the chart has frequency at most that of every charted
entry. -/
theorem claim2_word_frequency_chart (reviews : List String) :
    (wordFrequencyChart reviews).length ≤ 10 ∧
      (wordFrequencyChart reviews).Pairwise (fun a b => b.2 ≤ a.2) ∧
      (∀ p ∈ wordFrequencyChart reviews,
        p.1 ∈ reviewTokens reviews ∧
          p.2 = (reviewTokens reviews).count p.1) ∧
      (wordFrequencyChart reviews).Pairwise (fun a b => a.2 = b.2 →
        ([a.1, b.1]).Sublist (dedupFirst (reviewTokens reviews))) ∧
      (∀ w ∈ reviewTokens reviews,
        (∀ p ∈ wordFrequencyChart reviews, p.1 ≠ w) →
        ∀ p ∈ wordFrequencyChart reviews,
          (reviewTokens reviews).count w ≤ p.2) := by
  have hchart : wordFrequencyChart reviews =
      (sortByCountDesc (tally (reviewTokens reviews))).take 10 := rfl
  refine ⟨?_, ?_, ?_, ?_, ?_⟩
  · rw [hchart, List.length_take]
    exact Nat.min_le_left _ _
  · rw [hchart]
    exact List.Pairwise.sublist (List.take_sublist _ _)
      (sortByCountDesc_sorted (tally (reviewTokens reviews)))
  · intro p hp
    rw [hchart] at hp
    have h1 : p ∈ sortByCountDesc (tally (reviewTokens reviews)) :=
      (List.take_sublist _ _).subset hp
    have h2 : p ∈ tally (reviewTokens reviews) :=
      (sortByCountDesc_perm _).subset h1
    exact mem_tally h2
  · rw [hchart]
    have hties := sortByCountDesc_ties (tally_nodup (reviewTokens reviews))
    have htake := List.Pairwise.sublist (List.take_sublist 10 _) hties
    refine htake.imp ?_
    intro a b hab heq
    have hsub := (hab heq).map Prod.fst
    rw [tally_map_fst] at hsub
    exact hsub
  · intro w hw hnot p hp
    rw [hchart] at hp hnot
    have hwmem : (w, (reviewTokens reviews).count w) ∈
        tally (reviewTokens reviews) := tally_mem_of_mem hw
    have hsmem : (w, (reviewTokens reviews).count w) ∈
        sortByCountDesc (tally (reviewTokens reviews)) :=
      (sortByCountDesc_perm _).mem_iff.mpr hwmem
    have hsplit : sortByCountDesc (tally (reviewTokens reviews)) =
        (sortByCountDesc (tally (reviewTokens reviews))).take 10 ++
          (sortByCountDesc (tally (reviewTokens reviews))).drop 10 :=
      (List.take_append_drop 10 _).symm
    rw [hsplit] at hsmem
    rcases List.mem_append.mp hsmem with hin | hin
    · exact absurd rfl (hnot _ hin)
    · have hsorted := sortByCountDesc_sorted (tally (reviewTokens reviews))
      rw [hsplit] at hsorted
      exact (List.pairwise_append.mp hsorted).2.2 p hp _ hin

/-- Witness for C2: in the reviews `"a a b"` and `"b c"` the token `a`
appears in the stream and the chart records its frequency 2. -/
theorem claim2_witness :
    "a" ∈ reviewTokens ["a a b", "b c"] ∧
      2 = (reviewTokens ["a a b", "b c"]).count "a" :=
  (claim2_word_frequency_chart ["a a b", "b c"]).2.2.1 ("a", 2) (by decide)

/-- Claim C1: for every uploaded CSV whose first-column values the
classifier labels successfully, the row loop produces exactly one
`ResultRecord` per row with at least one field — review is field 0 of the
row and sentiment the classifier's label for it — in the order of the
input rows, and rows with zero fields are skipped silently, producing
neither a record nor an error. -/
theorem claim1_one_record_per_nonempty_row {E : Type}
    (classify : String → Except E String) (lab : String → String)
    (h : ∀ t, classify t = Except.ok (lab t)) (rows : List (List String)) :
    processRows classify rows =
      Except.ok (rows.filterMap (fun r => r.head?.map
        (fun t => ({ review := t, sentiment := lab t } : ResultRecord)))) :=
  processRows_ok classify lab h rows

/-- Witness for C1: three rows — one-field, zero-field, two-field — yield
two records in order, the zero-field row silently skipped. -/
theorem claim1_witness :
    processRows (fun t => (Except.ok (t ++ "!") : Except Unit String))
        [["a"], [], ["b", "x"]] =
      Except.ok [{ review := "a", sentiment := "a!" },
        { review := "b", sentiment := "b!" }] := by
  have := claim1_one_record_per_nonempty_row
    (fun t => (Except.ok (t ++ "!") : Except Unit String)) (fun t => t ++ "!")
    (fun t => rfl) [["a"], [], ["b", "x"]]
  simpa using this

/-- Counterexample to claim C8: a row whose only field is the empty string
does produce an `AnalysisResult` (the loop guard is `len(row) > 0`, not a
check that field 0 is non-empty), so against the claim the number of
results (1) differs from the number of rows with a non-empty first column
(0). -/
theorem claim8_counterexample :
    processRows (fun _ => (Except.ok "NEUTRAL" : Except Unit String)) [[""]] =
        Except.ok [{ review := "", sentiment := "NEUTRAL" }] ∧
      processRowsCalls (fun _ => (Except.ok "NEUTRAL" : Except Unit String))
          [[""]] = [""] ∧
      (List.filter (fun r => r.headD "" != "")
        ([[""]] : List (List String))).length = 0 := by
  refine ⟨rfl, rfl, rfl⟩

/-- Claim C8 as amended: when the classifier succeeds on every text, it is
invoked (producing one `AnalysisResult`) exactly once per row with at
least one field — even when that first field is the empty string — and for
no other row. -/
theorem claim8_one_call_per_row_with_fields {E : Type}
    (classify : String → Except E String) (lab : String → String)
    (h : ∀ t, classify t = Except.ok (lab t)) (rows : List (List String)) :
    processRowsCalls classify rows = rows.filterMap List.head? ∧
      ∃ records, processRows classify rows = Except.ok records ∧
        records.length = (rows.filterMap List.head?).length := by
  refine ⟨processRowsCalls_ok classify lab h rows, _, processRows_ok classify lab h rows, ?_⟩
  have : rows.filterMap (fun r => r.head?.map
      (fun t => ({ review := t, sentiment := lab t } : ResultRecord))) =
      (rows.filterMap List.head?).map
        (fun t => ({ review := t, sentiment := lab t } : ResultRecord)) := by
    rw [List.map_filterMap]
  rw [this, List.length_map]

/-- Witness for C8 (amended): the classifier is called on `""` for the row
`[""]` and on `"a"` for `["a", "x"]`, once each, and not for `[]`. -/
theorem claim8_witness :
    processRowsCalls (fun _ => (Except.ok "NEUTRAL" : Except Unit String))
        [[""], [], ["a", "x"]] = ["", "a"] := by
  have := (claim8_one_call_per_row_with_fields
    (fun _ => (Except.ok "NEUTRAL" : Except Unit String)) (fun t => "NEUTRAL")
    (fun t => rfl) [[""], [], ["a", "x"]]).1
  simpa using this

/-- Claim C5: if the classifier raises on any row, the exception
propagates out of `process_csv` uncaught and no partial result is saved —
the result CSV is not written and no upload is attempted (the whole
classification loop runs before the file write, so the effect list is
empty) — and the whole request pipeline aborts with that exception. -/
theorem claim5_classifier_error_aborts {E : Type}
    (classify : String → Except E String) (uploadOutcome : Except String Unit)
    (rows : List (List String)) (e : E)
    (h : processRows classify rows = Except.error e) :
    process_csv classify uploadOutcome rows = (Except.error e, []) ∧
      runPipeline classify uploadOutcome rows =
        (Except.error (PipelineError.classification e), []) := by
  constructor
  · simp [process_csv, h]
  · simp [runPipeline, h]

/-- Witness for C5: a classifier that raises on `"boom"` aborts the
request on the second row, with no file write and no upload attempt. -/
theorem claim5_witness :
    process_csv (fun t => if t = "boom" then Except.error 7 else Except.ok "P")
        (Except.ok ()) [["ok"], ["boom"]] = (Except.error 7, []) ∧
      runPipeline (fun t => if t = "boom" then Except.error 7 else Except.ok "P")
        (Except.ok ()) [["ok"], ["boom"]] =
        (Except.error (PipelineError.classification 7), []) :=
  claim5_classifier_error_aborts
    (fun t => if t = "boom" then Except.error 7 else Except.ok "P")
    (Except.ok ()) [["ok"], ["boom"]] 7 (by decide)

/-- Claim C4: if the upload of the persisted CSV to object storage raises,
the failure is caught inside `upload_local_file_to_s3` (which returns
`False` instead of propagating), `process_csv` still returns the local CSV
path whenever classification succeeded, and the request's result — which
charts are rendered, or which exception aborts it — is exactly the same as
when the upload succeeds: upload failure never aborts the request. -/
theorem claim4_upload_failure_nonfatal {E : Type}
    (classify : String → Except E String) (uploadOutcome : Except String Unit)
    (rows : List (List String)) :
    (∀ msg, upload_local_file_to_s3 (Except.error msg) = false) ∧
      ((runPipeline classify uploadOutcome rows).1 =
        (runPipeline classify (Except.ok ()) rows).1) ∧
      (∀ records, processRows classify rows = Except.ok records →
        (process_csv classify uploadOutcome rows).1 = Except.ok csvFilePath) := by
  refine ⟨fun msg => rfl, ?_, ?_⟩
  · cases h : processRows classify rows with
    | error e => simp [runPipeline, h]
    | ok records =>
      cases hv : visualize_sentiment_trends (toCsvLines records) with
      | error v => simp [runPipeline, h, hv]
      | ok charts => simp [runPipeline, h, hv]
  · intro records h
    simp [process_csv, h]

/-- Witness for C4: with a failing upload the path is still returned and
the pipeline's result equals the successful-upload result. -/
theorem claim4_witness :
    (process_csv (fun _ => (Except.ok "P" : Except Unit String))
        (Except.error "network down") [["hi"]]).1 = Except.ok csvFilePath ∧
      (runPipeline (fun _ => (Except.ok "P" : Except Unit String))
          (Except.error "network down") [["hi"]]).1 =
        (runPipeline (fun _ => (Except.ok "P" : Except Unit String))
          (Except.ok ()) [["hi"]]).1 := by
  have h := claim4_upload_failure_nonfatal
    (fun _ => (Except.ok "P" : Except Unit String))
    (Except.error "network down") [["hi"]]
  exact ⟨h.2.2 [{ review := "hi", sentiment := "P" }] (by decide), h.2.1⟩

/-- Counterexample to claim C3: for an empty upload the row loop does
produce an empty `ResultSet`, but the persisted CSV artifact does not
contain the header row `Review,Sentiment` — `pd.DataFrame([])` has no
columns, so the written file is a single blank line with no header. -/
theorem claim3_counterexample :
    processRows (fun _ => (Except.ok "P" : Except Unit String)) [] =
        Except.ok [] ∧
      (process_csv (fun _ => (Except.ok "P" : Except Unit String))
          (Except.ok ()) []).2 =
        [SideEffect.writeFile csvFilePath [""],
         SideEffect.s3Upload csvFilePath bucketName csvFileName true] ∧
      toCsvLines [] ≠ ["Review,Sentiment"] := by
  refine ⟨rfl, rfl, by decide⟩

/-- Claim C3 as amended: for an empty uploaded file (and any input
yielding an empty `ResultSet`) the row loop produces an empty `ResultSet`,
and the persisted CSV artifact contains no `Review,Sentiment` header row
and no data rows — it is a single blank line, because the empty
`DataFrame` has no columns. -/
theorem claim3_empty_resultset_csv {E : Type}
    (classify : String → Except E String)
    (uploadOutcome : Except String Unit) :
    processRows classify [] = Except.ok [] ∧
      toCsvLines [] = [""] ∧
      "Review,Sentiment" ∉ toCsvLines [] ∧
      (process_csv classify uploadOutcome []).2 =
        [SideEffect.writeFile csvFilePath [""],
         SideEffect.s3Upload csvFilePath bucketName csvFileName
           (upload_local_file_to_s3 uploadOutcome)] := by
  refine ⟨rfl, rfl, by decide, rfl⟩

/-- Claim C10: when the `ResultSet` is empty the persisted intermediate
CSV has no header row and no data row (a single blank line), and
`pd.read_csv` on it raises `EmptyDataError` before the `Sentiment`-column
validation check runs — an empty upload aborts the request with that
uncaught exception instead of rendering charts or reporting the
validation error. -/
theorem claim10_empty_resultset_aborts {E : Type}
    (classify : String → Except E String)
    (uploadOutcome : Except String Unit) :
    toCsvLines [] = [""] ∧
      readCsv (toCsvLines []) = Except.error VizError.emptyData ∧
      visualize_sentiment_trends (toCsvLines []) =
        Except.error VizError.emptyData ∧
      VizError.emptyData ≠ VizError.missingSentimentColumn ∧
      (runPipeline classify uploadOutcome []).1 =
        Except.error (PipelineError.visualization VizError.emptyData) ∧
      upload_file classify uploadOutcome
          { method := HttpMethod.post,
            filePart := some { filename := "reviews.csv", rows := [] } } =
        (Except.error (PipelineError.visualization VizError.emptyData), true) := by
  refine ⟨rfl, rfl, rfl, by decide, rfl, rfl⟩

/-- Claim C6: on a CSV that loads into a frame without a `Sentiment`
column, `visualize_sentiment_trends` raises the `ValueError` validation
error before rendering any chart — it never returns chart data. -/
theorem claim6_missing_sentiment_validation (lines : List String) (df : Frame)
    (h1 : readCsv lines = Except.ok df) (h2 : "Sentiment" ∉ df.cols) :
    visualize_sentiment_trends lines =
        Except.error VizError.missingSentimentColumn ∧
      ∀ charts, visualize_sentiment_trends lines ≠ Except.ok charts := by
  have hmain : visualize_sentiment_trends lines =
      Except.error VizError.missingSentimentColumn := by
    unfold visualize_sentiment_trends
    rw [h1]
    simp [h2]
  exact ⟨hmain, fun charts h => by rw [hmain] at h; exact Except.noConfusion h⟩

/-- Witness for C6: a CSV with header `Review` only loads successfully and
is rejected with the validation error. -/
theorem claim6_witness :
    visualize_sentiment_trends ["Review", "hello"] =
        Except.error VizError.missingSentimentColumn ∧
      ∀ charts, visualize_sentiment_trends ["Review", "hello"] ≠
        Except.ok charts :=
  claim6_missing_sentiment_validation ["Review", "hello"]
    { cols := ["Review"], rows := [["hello"]] } (by decide) (by decide)

/-- Claim C7: decoding first attempts a UTF-8 decode of the whole buffer
and, exactly when that fails, falls back to ISO-8859-1, which maps each
byte to the code point of the same value and is total — so decoding the
uploaded bytes never fails, and invalid-UTF-8 input is decoded by the
fallback rather than raising. -/
theorem claim7_decode_fallback (bs : List (Fin 256)) :
    (∀ cps, utf8Decode bs = some cps → decodeBytes bs = cps) ∧
      (utf8Decode bs = none → decodeBytes bs = latin1Decode bs) ∧
      (latin1Decode bs).length = bs.length := by
  refine ⟨?_, ?_, by simp [latin1Decode]⟩
  · intro cps h
    simp [decodeBytes, h]
  · intro h
    simp [decodeBytes, h]

/-- Witness for C7: the buffer `[0xFF]` is invalid UTF-8 (a stray
continuation-range byte) and is decoded by the Latin-1 fallback to the
code point 255. -/
theorem claim7_witness :
    decodeBytes [(255 : Fin 256)] = latin1Decode [(255 : Fin 256)] ∧
      decodeBytes [(255 : Fin 256)] = [255] :=
  ⟨(claim7_decode_fallback [(255 : Fin 256)]).2.1 (by decide), by decide⟩

/-- Counterexample to claim C9: a POST with a `.csv` filename whose
content yields an empty `ResultSet` does run the pipeline, but the
request aborts with the uncaught `EmptyDataError` — the form page with the
three image URLs is not returned, so the claim's final clause fails. -/
theorem claim9_counterexample :
    upload_file (fun _ => (Except.ok "P" : Except Unit String)) (Except.ok ())
        { method := HttpMethod.post,
          filePart := some { filename := "empty.csv", rows := [] } } =
        (Except.error (PipelineError.visualization VizError.emptyData), true) ∧
      upload_file (fun _ => (Except.ok "P" : Except Unit String)) (Except.ok ())
          { method := HttpMethod.post,
            filePart := some { filename := "empty.csv", rows := [] } } ≠
        (Except.ok (HttpResponse.formPage staticImageUrls), true) := by
  refine ⟨rfl, by decide⟩

/-- Claim C9 as amended: for every POST request to `/`: a missing `file`
field gives status 400 with body `No file part`; a present field with
empty filename gives 400 `No selected file`; a filename not ending in
`.csv` runs no pipeline step and returns the bare form page with no error
and no image URLs; a filename ending in `.csv` runs the full pipeline and,
when the pipeline completes without raising, the form page is returned
with exactly the three image URLs `/static/sentiment_bar.png`,
`/static/sentiment_pie.png`, `/static/word_frequency.png` (a pipeline
exception instead propagates out of the handler uncaught). -/
theorem claim9_post_routing {E : Type} (classify : String → Except E String)
    (uploadOutcome : Except String Unit) (fp : FilePart) :
    (upload_file classify uploadOutcome
        { method := HttpMethod.post, filePart := none } =
      (Except.ok (HttpResponse.text "No file part" 400), false)) ∧
    (fp.filename = "" →
      upload_file classify uploadOutcome
          { method := HttpMethod.post, filePart := some fp } =
        (Except.ok (HttpResponse.text "No selected file" 400), false)) ∧
    (fp.filename ≠ "" → List.isSuffixOf ".csv".data fp.filename.data = false →
      upload_file classify uploadOutcome
          { method := HttpMethod.post, filePart := some fp } =
        (Except.ok (HttpResponse.formPage []), false)) ∧
    (fp.filename ≠ "" → List.isSuffixOf ".csv".data fp.filename.data = true →
      (upload_file classify uploadOutcome
          { method := HttpMethod.post, filePart := some fp }).2 = true ∧
      ((∃ pc, (runPipeline classify uploadOutcome fp.rows).1 = Except.ok pc) →
        upload_file classify uploadOutcome
            { method := HttpMethod.post, filePart := some fp } =
          (Except.ok (HttpResponse.formPage staticImageUrls), true)) ∧
      (∀ e, (runPipeline classify uploadOutcome fp.rows).1 = Except.error e →
        upload_file classify uploadOutcome
            { method := HttpMethod.post, filePart := some fp } =
          (Except.error e, true))) := by
  refine ⟨rfl, ?_, ?_, ?_⟩
  · intro h
    simp [upload_file, h]
  · intro h1 h2
    simp [upload_file, h1, h2]
  · intro h1 h2
    refine ⟨?_, ?_, ?_⟩
    · simp only [upload_file, h1, h2]
      cases (runPipeline classify uploadOutcome fp.rows).1 <;> simp
    · rintro ⟨pc, hpc⟩
      simp [upload_file, h1, h2, hpc]
    · intro e he
      simp [upload_file, h1, h2, he]

/-- Witness for C9 (amended): a `.csv` upload with one row and a
successful classifier renders the form page with exactly the three image
URLs. -/
theorem claim9_witness :
    upload_file (fun _ => (Except.ok "P" : Except Unit String)) (Except.ok ())
        { method := HttpMethod.post,
          filePart := some { filename := "a.csv", rows := [["good"]] } } =
      (Except.ok (HttpResponse.formPage staticImageUrls), true) :=
  ((claim9_post_routing (fun _ => (Except.ok "P" : Except Unit String))
      (Except.ok ()) { filename := "a.csv", rows := [["good"]] }).2.2.2
    (by decide) (by decide)).2.1 ⟨_, rfl⟩

end CCCP
